import Mathlib

/-!
Verification of the viral-content-breakdown acquisition and signal pipeline.

The Python sources under scripts/ (common.py, fetch_content.py,
extract_signals.py, analyze_content.py) are shallowly embedded below:
pure helpers become Lean functions, the subprocess / file-system world is
passed in explicitly as a scripted environment (exit codes, stderr tails,
and the set of files newly present after each external invocation), and
Python exceptions become Except values.
-/

namespace VCB

/-- Python `pat in s` membership check, specialised to character lists:
`hasPref pat s` is `s.startswith(pat)`. -/
def hasPref : List Char → List Char → Bool
  | [], _ => true
  | _ :: _, [] => false
  | a :: as, b :: bs => a == b && hasPref as bs

/-- Python `pat in s` (substring containment) over character lists. -/
def containsChars (s pat : List Char) : Bool :=
  hasPref pat s ||
    match s with
    | [] => false
    | _ :: t => containsChars t pat

/-- Python `s.lower()` over character lists. -/
def lowerChars (l : List Char) : List Char := l.map Char.toLower

/-- Python `pat in s` on Lean strings (substring containment). -/
def strIn (pat s : String) : Bool := containsChars s.data pat.data

/-! ## common.py -/

/-- `VIDEO_EXTS` from common.py. -/
def VIDEO_EXTS : List (List Char) :=
  [".mp4".data, ".mov".data, ".mkv".data, ".webm".data, ".m4v".data, ".flv".data]

/-- `IMAGE_EXTS` from common.py. -/
def IMAGE_EXTS : List (List Char) :=
  [".jpg".data, ".jpeg".data, ".png".data, ".webp".data, ".gif".data, ".bmp".data]

/-- `AUDIO_EXTS` from common.py. -/
def AUDIO_EXTS : List (List Char) :=
  [".mp3".data, ".wav".data, ".m4a".data, ".aac".data, ".flac".data, ".ogg".data]

/-- `TRANSCRIPT_EXTS` from common.py. -/
def TRANSCRIPT_EXTS : List (List Char) :=
  [".srt".data, ".vtt".data, ".ass".data, ".lrc".data, ".txt".data]

/-- Membership of an extension in one of the fixed extension sets. -/
def extMem (ext : List Char) (exts : List (List Char)) : Bool :=
  exts.any (fun e => e == ext)

/-- The final path component (`pathlib.PurePath.name` for the paths the
pipeline produces: split on `/`, take the last piece). -/
def lastComponent (p : List Char) : List Char :=
  ((p.splitOn '/').getLast? ).getD []

/-- Index of the last `.` in a name, if any. -/
def rfindDot (name : List Char) : Option Nat :=
  (List.range name.length).foldl
    (fun acc i => if name.getD i ' ' == '.' then some i else acc) none

/-- `pathlib.PurePath.suffix`: the extension of the final component —
`name[i:]` for the last dot index `i` with `0 < i < len(name) - 1`,
otherwise the empty string. -/
def pathSuffix (p : String) : List Char :=
  let name := lastComponent p.data
  match rfindDot name with
  | some i => if 0 < i ∧ i + 1 < name.length then name.drop i else []
  | none => []

/-- The five asset categories of `classify_files`. -/
inductive Cat where
  | video | images | audio | transcript | other
  deriving DecidableEq, Repr

/-- The category `classify_files` assigns to a path: lowercased extension
looked up against the fixed sets, in the source's if/elif order. -/
def category (p : String) : Cat :=
  let ext := lowerChars (pathSuffix p)
  if extMem ext VIDEO_EXTS then .video
  else if extMem ext IMAGE_EXTS then .images
  else if extMem ext AUDIO_EXTS then .audio
  else if extMem ext TRANSCRIPT_EXTS then .transcript
  else .other

/-- Output buckets of `classify_files`. -/
structure Buckets where
  video : List String
  images : List String
  audio : List String
  transcript : List String
  other : List String
  deriving DecidableEq, Repr

/-- `classify_files` from common.py: partition paths into the five buckets
by lowercased extension, preserving input order within each bucket. -/
def classify_files : List String → Buckets
  | [] => ⟨[], [], [], [], []⟩
  | p :: rest =>
    let b := classify_files rest
    let ext := lowerChars (pathSuffix p)
    if extMem ext VIDEO_EXTS then ⟨p :: b.video, b.images, b.audio, b.transcript, b.other⟩
    else if extMem ext IMAGE_EXTS then ⟨b.video, p :: b.images, b.audio, b.transcript, b.other⟩
    else if extMem ext AUDIO_EXTS then ⟨b.video, b.images, p :: b.audio, b.transcript, b.other⟩
    else if extMem ext TRANSCRIPT_EXTS then ⟨b.video, b.images, b.audio, p :: b.transcript, b.other⟩
    else ⟨b.video, b.images, b.audio, b.transcript, p :: b.other⟩

/-- `detect_platform` from common.py, over the lowercased host (netloc) of
the URL.  Returns "douyin", "xiaohongshu" or "unknown". -/
def detect_platform_host (host : String) : String :=
  let h := lowerChars host.data
  if containsChars h "douyin.com".data || containsChars h "iesdouyin.com".data then "douyin"
  else if containsChars h "xiaohongshu.com".data || containsChars h "xhslink.com".data then
    "xiaohongshu"
  else "unknown"

/-- Python `s.endswith(suf)` over character lists. -/
def endsWithChars (suf s : List Char) : Bool := hasPref suf.reverse s.reverse

/-! ## fetch_content.py -/

/-- The components of a parsed URL that the source reads through
`urllib.parse.urlparse` / `parse_qs`: the network location (host), the
path, and the query as an ordered key/value list.  `parse_qs` never
yields empty values, which is why query values are plain strings. -/
structure Url where
  host : String
  path : String
  query : List (String × String)
  deriving DecidableEq, Repr

/-- `qs.get(key, [None])[0]`: the first query value bound to `key`. -/
def lookupQueryFirst (key : String) (q : List (String × String)) : Option String :=
  ((q.filter (fun kv => kv.fst == key)).head?).map (fun kv => kv.snd)

/-- `detect_platform` from common.py on a parsed URL. -/
def detect_platform (u : Url) : String := detect_platform_host u.host

/-- `_normalize_content_url` from fetch_content.py: rewrite a douyin
profile-modal URL (`/user/...?modal_id=ID`) to the direct video URL
`https://www.douyin.com/video/ID`; tag xhslink short links; otherwise
return the URL unchanged. -/
def _normalize_content_url (u : Url) : Url × Option String :=
  let host := lowerChars u.host.data
  let fallthru : Url × Option String :=
    if containsChars host "xhslink.com".data then (u, some "xhs_short_link_detected")
    else (u, none)
  if containsChars host "douyin.com".data then
    match lookupQueryFirst "modal_id" u.query with
    | some m =>
      if m != "" && hasPref "/user/".data u.path.data then
        (⟨"www.douyin.com", "/video/" ++ m, []⟩, some "converted_user_modal_to_video")
      else fallthru
    | none => fallthru
  else fallthru

/-- The fields of the session JSON that `_build_cookie_args` reads.
`cookiesFileExists` scripts the `Path(cookie_file).exists()` probe. -/
structure Session where
  ok : Bool
  cookiesFileVal : Option String
  cookiesFileExists : Bool
  cookiesFromBrowser : Option String
  deriving DecidableEq, Repr

/-- `_build_cookie_args` from fetch_content.py. -/
def _build_cookie_args (s : Session) : List String :=
  if ¬ s.ok then []
  else
    let fileOK :=
      match s.cookiesFileVal with
      | some f => f != "" && s.cookiesFileExists
      | none => false
    if fileOK then ["--cookies", s.cookiesFileVal.getD ""]
    else
      match s.cookiesFromBrowser with
      | some b => if b != "" then ["--cookies-from-browser", b] else []
      | none => []

/-- The browser preference order of `_cookie_arg_variants`. -/
def preferredBrowsers (platform : String) : List String :=
  if platform == "xiaohongshu" then ["chrome", "chromium", "safari", "firefox"]
  else ["chrome", "chromium", "firefox", "safari"]

/-- The duplicate-removal pass at the end of `_cookie_arg_variants`:
keep the first variant for each distinct argument list. -/
def dedupVariants : List (String × List String) → List (List String) → List (String × List String)
  | [], _ => []
  | (l, a) :: rest, seen =>
    if seen.contains a then dedupVariants rest seen
    else (l, a) :: dedupVariants rest (a :: seen)

/-- `_cookie_arg_variants` from fetch_content.py: session cookies first,
then browser-extracted cookies in preference order, then no cookies,
with duplicate argument sets removed. -/
def _cookie_arg_variants (s : Session) (platform : String) : List (String × List String) :=
  let sessionArgs := _build_cookie_args s
  let base :=
    (if sessionArgs != [] then [("session", sessionArgs)] else []) ++
      (preferredBrowsers platform).map
        (fun b => ("browser:" ++ b, ["--cookies-from-browser", b])) ++
      [("no-cookies", ([] : List String))]
  dedupVariants base []

/-- `summarize_cmd` output: the captured exit code and truncated
stdout/stderr of one external invocation. -/
structure RunSummary where
  exit_code : Int
  stdout_tail : String
  stderr_tail : String
  deriving DecidableEq, Repr

/-- One cookie-variant sub-attempt recorded by `_run_yt_dlp`. -/
structure VariantDetail where
  cookie_variant : String
  result : RunSummary
  new_files : List String
  deriving DecidableEq, Repr

/-- One entry of the run's `adapter_attempts` log (the payload dicts the
adapter runners hand back to `main`).  `errMsg` models the `error` key of
the yt-dlp-missing / fallback-exception payloads; absent keys are
`none` / `[]`. -/
structure LogEntry where
  adapter : String
  adapterBin : Option String := none
  errMsg : Option String := none
  result : Option RunSummary := none
  new_files : List String := []
  attempt_variants : List VariantDetail := []
  deriving DecidableEq, Repr

/-- What the wechat HTML fallback extracts from a successfully fetched
page, as far as its file-system effect goes.  The regex extraction of the
og:image cover URL is abstracted to `coverUrl`; `coverFetchOk` scripts the
cover download; `coverPng` is whether ".png" occurs in the lowercased
cover URL (choosing the stored extension). -/
structure WechatPage where
  coverUrl : Option String
  coverFetchOk : Bool
  coverPng : Bool
  deriving DecidableEq, Repr

/-- The scripted external world of one acquisition run: which executables
are on PATH, the outcome (command summary plus file-system diff) of each
external invocation, the wechat page fetch, the download-dir contents
before the wechat fallback runs, and the download-dir contents when the
adapters are done.  New-file lists are relative to the directory state at
the adapter's entry, exactly as the source computes them. -/
structure AcqEnv where
  execFound : String → Bool
  binOutcome : String → RunSummary × List String
  ytOutcome : List String → RunSummary × List String
  wechatFetch : Except String WechatPage
  wechatPre : List String
  finalFiles : List String

/-- An attempt outcome that the engine treats as a success:
`exit_code == 0 and new_files`. -/
def attemptSuccess (res : RunSummary) (nf : List String) : Bool :=
  res.exit_code == 0 && nf != []

/-- The shared candidate loop of `_run_xhs_specialized`,
`_run_douyin_specialized` and `_run_wechat_specialized`: skip binaries not
on PATH, run the first ones found in order, return the payload of the
first successful run; failed runs leave no payload behind. -/
def runSpecialized (env : AcqEnv) (adapterName : String) :
    List String → Bool × Option LogEntry
  | [] => (false, none)
  | bin :: rest =>
    if ¬ env.execFound bin then runSpecialized env adapterName rest
    else
      let o := env.binOutcome bin
      if attemptSuccess o.fst o.snd then
        (true, some { adapter := adapterName, adapterBin := some bin,
                      result := some o.fst, new_files := o.snd })
      else runSpecialized env adapterName rest

/-- Candidate binaries of `_run_xhs_specialized`. -/
def xhsCandidateBins : List String :=
  ["xhs-downloader", "rednote-video-assist", "rednotevideoassist", "xhsdl", "res-downloader"]

/-- Candidate binaries of `_run_douyin_specialized`. -/
def douyinCandidateBins : List String := ["douyin-downloader", "res-downloader"]

/-- Candidate binaries of `_run_wechat_specialized`. -/
def wechatCandidateBins : List String := ["wechat-article-exporter", "res-downloader"]

/-- The cookie-variant loop of `_run_yt_dlp`: run the variants in order,
record every sub-attempt in `attempt_variants`, stop at the first
successful one; on exhaustion return the last attempt's summary. -/
def ytLoop (env : AcqEnv) :
    List (String × List String) → List VariantDetail → Bool × LogEntry
  | [], details =>
    (false, { adapter := "yt-dlp",
              result := (details.getLast?).map (fun d => d.result),
              new_files := ((details.getLast?).map (fun d => d.new_files)).getD [],
              attempt_variants := details })
  | (label, cargs) :: rest, details =>
    let o := env.ytOutcome cargs
    let d : VariantDetail := ⟨label, o.fst, o.snd⟩
    if attemptSuccess o.fst o.snd then
      (true, { adapter := "yt-dlp", result := some o.fst, new_files := o.snd,
               attempt_variants := details ++ [d] })
    else ytLoop env rest (details ++ [d])

/-- `_run_yt_dlp` from fetch_content.py. -/
def _run_yt_dlp (env : AcqEnv) (s : Session) (platform : String) : Bool × LogEntry :=
  if ¬ env.execFound "yt-dlp" then
    (false, { adapter := "yt-dlp", errMsg := some "yt-dlp 未安装" })
  else ytLoop env (_cookie_arg_variants s platform) []

/-- `_run_wechat_html_fallback` from fetch_content.py: on a fetch
exception, fail with a synthesized exit-1 summary; on a fetched page,
write `article.html`, `article_body.txt`, optionally the cover image, and
`wechat_article.info.json`, report the names not already present as
`new_files`, and return success unconditionally with a synthesized exit-0
summary.  (The written names are listed in lexicographic order, so the
source's `sorted` is the identity here.) -/
def _run_wechat_html_fallback (env : AcqEnv) : Bool × LogEntry :=
  match env.wechatFetch with
  | .error msg =>
    (false, { adapter := "wechat-html-fallback", errMsg := some msg,
              result := some ⟨1, "", msg⟩, new_files := [] })
  | .ok pg =>
    let coverFile : List String :=
      match pg.coverUrl with
      | some _ => if pg.coverFetchOk then [if pg.coverPng then "cover.png" else "cover.jpg"] else []
      | none => []
    let written := ["article.html", "article_body.txt"] ++ coverFile ++ ["wechat_article.info.json"]
    let newFiles := written.filter (fun f => ¬ env.wechatPre.contains f)
    (true, { adapter := "wechat-html-fallback", result := some ⟨0, "ok", ""⟩,
             new_files := newFiles })

/-- The `stderr_all` aggregation inside `_derive_failure_reason`:
newline-join of each log entry's `result.stderr_tail` (empty for entries
without a result). -/
def stderrAll (attempts : List LogEntry) : String :=
  String.intercalate "\n"
    (attempts.map (fun a => ((a.result).map (fun r => r.stderr_tail)).getD ""))

/-- `_looks_dns_error` from fetch_content.py. -/
def _looks_dns_error (text : String) : Bool :=
  let t := String.mk (lowerChars text.data)
  strIn "nodename nor servname provided" t || strIn "name or service not known" t ||
    strIn "temporary failure in name resolution" t || strIn "failed to resolve" t

/-- `_looks_cookie_permission_error` from fetch_content.py. -/
def _looks_cookie_permission_error (text : String) : Bool :=
  let t := String.mk (lowerChars text.data)
  strIn "cookies.binarycookies" t || (strIn "operation not permitted" t && strIn "cookie" t)

/-- `_derive_failure_reason` from fetch_content.py.  The
`find_executable("yt-dlp")` probe is passed in as `ytDlpFound`; the rest
is the first-match-wins scan of the aggregated stderr. -/
def _derive_failure_reason (ytDlpFound : Bool) (attempts : List LogEntry) : String × String :=
  if ¬ ytDlpFound then
    ("yt-dlp 未安装", "先安装 yt-dlp（可用 python3 -m pip install --user yt-dlp）")
  else
    let stderr_all := stderrAll attempts
    let low := String.mk (lowerChars stderr_all.data)
    if _looks_dns_error stderr_all then
      ("网络或 DNS 无法解析平台域名", "检查当前环境网络/DNS；在可联网终端或代理环境重试")
    else if _looks_cookie_permission_error stderr_all then
      ("无权限读取浏览器 Cookies", "改用 Chrome 登录态或提供 --cookies 文件，避免 Safari Cookies 权限限制")
    else if strIn "fresh cookies are needed" low then
      ("平台要求更新登录态 Cookies", "先在浏览器打开目标视频页并保持登录，再重试；必要时提供 cookies 文件")
    else if strIn "http error 403" low || strIn "forbidden" low then
      ("访问被拒绝（403）", "刷新登录态并重试，或确认内容是否仅自己可见")
    else if strIn "404" stderr_all then
      ("内容不存在或已下线", "检查链接是否有效、内容是否被删除")
    else
      ("下载失败或未识别到可分析媒体", "检查链接可访问性、登录状态，并确认 yt-dlp/专用下载器已安装")

/-- `_infer_content_type` from fetch_content.py. -/
def _infer_content_type (b : Buckets) : String :=
  if b.video != [] then "video"
  else if b.images != [] then "image_post"
  else if b.transcript != [] then "article"
  else "unknown"

/-- Manual asset paths supplied by the caller (already filtered to
existing files, as `_collect_manual_assets` does). -/
structure ManualAssets where
  video : List String := []
  images : List String := []
  audio : List String := []
  transcript : List String := []
  deriving DecidableEq, Repr

/-- The observable result of one `fetch_content.main` run: process exit
status, the `ok` flag and error fields of the written
`fetch_result.json`, the attempt log, and derived metadata. -/
structure AcqResult where
  exitCode : Nat
  okFlag : Bool
  errCode : Option String
  errReason : Option String
  errAction : Option String
  attempts : List LogEntry
  contentType : String
  platform : String
  deriving DecidableEq, Repr

/-- The platform `main` resolves: `detect_platform` applied to the
normalized URL. -/
def acquirePlatform (rawUrl : Url) : String :=
  detect_platform (_normalize_content_url rawUrl).fst

/-- The adapter-attempt phase of `main` (the body between platform
resolution and classification): run the platform's specialized adapters,
then yt-dlp when there is no success yet, then the platform-specific
secondary success conditions (xiaohongshu accepts leftover `.info.json`
files; wechat falls back to the HTML scraper).  Returns the attempt log
and the success flag. -/
def acquireAttempts (env : AcqEnv) (platform : String) (session : Session) :
    List LogEntry × Bool :=
  let step1 : List LogEntry × Bool :=
    if platform == "wechat_mp" then
      let r := runSpecialized env "wechat-specialized" wechatCandidateBins
      ((match r.snd with | some p => [p] | none => []), r.fst)
    else ([], false)
  let step2 : List LogEntry × Bool :=
    if platform == "xiaohongshu" then
      let r := runSpecialized env "xhs-specialized" xhsCandidateBins
      (step1.fst ++ (match r.snd with | some p => [p] | none => []), step1.snd || r.fst)
    else step1
  let step3 : List LogEntry × Bool :=
    if platform == "douyin" then
      let r := runSpecialized env "douyin-specialized" douyinCandidateBins
      (step2.fst ++ (match r.snd with | some p => [p] | none => []), step2.snd || r.fst)
    else step2
  let step4 : List LogEntry × Bool :=
    if ¬ step3.snd && (platform == "douyin" || platform == "xiaohongshu") then
      let r := _run_yt_dlp env session platform
      (step3.fst ++ [r.snd], r.fst)
    else step3
  let succ5 : Bool :=
    if platform == "xiaohongshu" && ¬ step4.snd then
      env.finalFiles.any (fun f => endsWithChars ".info.json".data (lastComponent f.data))
    else step4.snd
  if platform == "wechat_mp" && ¬ succ5 then
    let r := _run_wechat_html_fallback env
    (step4.fst ++ [r.snd], r.fst)
  else (step4.fst, succ5)

/-- Ordered insertion, for modelling Python `sorted` over strings. -/
def insertSorted (x : String) : List String → List String
  | [] => [x]
  | y :: ys => if decide (x ≤ y) then x :: y :: ys else y :: insertSorted x ys

/-- Python `sorted(..., key=str)` over strings (insertion sort; same
sorted output on de-duplicated input). -/
def sortStrings (l : List String) : List String := l.foldr insertSorted []

/-- The de-duplicated, sorted union of download-dir files and manual
asset paths that `main` classifies. -/
def acquireAllFiles (env : AcqEnv) (manual : ManualAssets) : List String :=
  sortStrings ((env.finalFiles ++ manual.video ++ manual.images ++ manual.audio ++
      manual.transcript).eraseDups)

/-- `main` from fetch_content.py: normalize the URL, resolve the
platform (hard stop on unknown), run the adapter-attempt phase, classify
the resulting files, and either write the ok payload or the
classification-derived `DOWNLOAD_FAILED` error. -/
def mainAcquire (env : AcqEnv) (rawUrl : Url) (session : Session)
    (manual : ManualAssets) : AcqResult :=
  if acquirePlatform rawUrl == "unknown" then
    { exitCode := 1, okFlag := false, errCode := some "UNSUPPORTED_PLATFORM",
      errReason := some "仅支持抖音、小红书、微信公众号链接",
      errAction := some "请提供 douyin.com / xiaohongshu.com / xhslink.com / mp.weixin.qq.com 链接",
      attempts := [], contentType := "", platform := "unknown" }
  else if ¬ (acquireAttempts env (acquirePlatform rawUrl) session).snd &&
      _infer_content_type (classify_files (acquireAllFiles env manual)) == "unknown" then
    { exitCode := 1, okFlag := false, errCode := some "DOWNLOAD_FAILED",
      errReason := some (_derive_failure_reason (env.execFound "yt-dlp")
        (acquireAttempts env (acquirePlatform rawUrl) session).fst).fst,
      errAction := some (_derive_failure_reason (env.execFound "yt-dlp")
        (acquireAttempts env (acquirePlatform rawUrl) session).fst).snd,
      attempts := (acquireAttempts env (acquirePlatform rawUrl) session).fst,
      contentType := _infer_content_type (classify_files (acquireAllFiles env manual)),
      platform := acquirePlatform rawUrl }
  else
    { exitCode := 0, okFlag := true, errCode := none, errReason := none,
      errAction := none,
      attempts := (acquireAttempts env (acquirePlatform rawUrl) session).fst,
      contentType := _infer_content_type (classify_files (acquireAllFiles env manual)),
      platform := acquirePlatform rawUrl }

/-! ## A small model of Python values, for the evidence normalizer -/

/-- Python strings are modelled as character lists. -/
abbrev Str := List Char

/-- JSON-like Python values flowing through the evidence code. -/
inductive JVal where
  | null
  | bool (b : Bool)
  | num (q : ℚ)
  | str (s : Str)
  | arr (items : List JVal)
  | obj (fields : List (Str × JVal))

/-- `d.get(key)` on a dict modelled as an association list (keys are
unique in every document this pipeline builds, so first-match lookup is
dict lookup). -/
def objGet (fields : List (Str × JVal)) (key : Str) : Option JVal :=
  ((fields.filter (fun kv => kv.fst == key)).head?).map (fun kv => kv.snd)

/-- Python truthiness of a value. -/
def pyTruthy : JVal → Bool
  | .null => false
  | .bool b => b
  | .num q => q != 0
  | .str s => s != []
  | .arr l => !l.isEmpty
  | .obj l => !l.isEmpty

/-- Python `str(v)`.  Strings pass through unchanged; the rendering of
non-string values is abstracted (no claim depends on it, only on the
result being a string). -/
def pyStr : JVal → Str
  | .str s => s
  | .null => "None".data
  | .bool b => if b then "True".data else "False".data
  | .num q => (toString q).data
  | .arr _ => "[...]".data
  | .obj _ => "\x7b...\x7d".data

/-- Numeric value of a digit run. -/
def digitsVal (l : List Char) : ℕ :=
  l.foldl (fun a c => 10 * a + (c.toNat - 48)) 0

/-- Whether a character run is a non-empty digit run. -/
def allDigits (l : List Char) : Bool := l != [] && l.all Char.isDigit

/-- Models Python `float()` applied to a string: optional surrounding
spaces and sign, then a plain decimal literal (`12`, `12.5`, `.5`,
`12.`); any other text — such as `high` — is rejected.  (Exponent and
inf/nan forms, which the pipeline never produces, are not modelled.) -/
def parseFloatChars (s : Str) : Option ℚ :=
  let t := (((s.dropWhile (fun c => c == ' ')).reverse).dropWhile (fun c => c == ' ')).reverse
  let core : Str × Bool :=
    match t with
    | '-' :: r => (r, true)
    | '+' :: r => (r, false)
    | _ => (t, false)
  let mag : Option ℚ :=
    match core.fst.splitOn '.' with
    | [ip] => if allDigits ip then some ((digitsVal ip : ℤ) : ℚ) else none
    | [ip, fp] =>
      if (ip != [] || fp != []) && ip.all Char.isDigit && fp.all Char.isDigit then
        some (((digitsVal ip : ℤ) : ℚ) + (digitsVal fp : ℚ) / ((10 : ℚ) ^ fp.length))
      else none
    | _ => none
  mag.map (fun q => if core.snd then -q else q)

/-- Python exceptions raised by `float()`. -/
inductive PyErr where
  | valueError
  | typeError
  deriving DecidableEq, Repr

/-- Python `float(v)`. -/
def pyFloat : JVal → Except PyErr ℚ
  | .num q => .ok q
  | .bool b => .ok (if b then 1 else 0)
  | .str s =>
    match parseFloatChars s with
    | some q => .ok q
    | none => .error .valueError
  | .null => .error .typeError
  | .arr _ => .error .typeError
  | .obj _ => .error .typeError

/-! ## analyze_content.py: the evidence normalizer -/

/-- `ALLOWED_EVIDENCE_TYPES` from analyze_content.py. -/
def ALLOWED_EVIDENCE_TYPES : List Str :=
  ["timestamp".data, "frame_ocr".data, "transcript_span".data,
   "cover_ocr".data, "visual_pattern".data]

/-- A normalized evidence item, the output record of
`_normalize_evidence`. -/
structure EvidenceItem where
  type : Str
  source : Str
  locator : Str
  snippet : Str
  confidence : ℚ
  deriving DecidableEq, Repr

/-- The body of `_normalize_evidence`'s loop for one item: skip
non-dict items (`ok none`); coerce an unknown `type` to
`transcript_span`; stringify and truncate `source`/`locator`/`snippet`;
compute `float(item.get("confidence", 0.5) or 0.5)`, which can raise. -/
def normalizeItem : JVal → Except PyErr (Option EvidenceItem)
  | .obj fields =>
    let etypeRaw := (objGet fields "type".data).getD .null
    let etype : Str :=
      match etypeRaw with
      | .str s => if ALLOWED_EVIDENCE_TYPES.any (fun t => t == s) then s
                  else "transcript_span".data
      | _ => "transcript_span".data
    let source := (pyStr ((objGet fields "source".data).getD (.str []))).take 300
    let locator := (pyStr ((objGet fields "locator".data).getD (.str []))).take 120
    let snippet := (pyStr ((objGet fields "snippet".data).getD (.str []))).take 200
    let confRaw := (objGet fields "confidence".data).getD (.num (1/2))
    let confVal := if pyTruthy confRaw then confRaw else .num (1/2)
    match pyFloat confVal with
    | .ok q => .ok (some ⟨etype, source, locator, snippet, q⟩)
    | .error e => .error e
  | _ => .ok none

/-- The loop of `_normalize_evidence` over the items of a list; a raised
exception aborts the whole call. -/
def normalizeLoop : List JVal → Except PyErr (List EvidenceItem)
  | [] => .ok []
  | it :: rest =>
    match normalizeItem it with
    | .error e => .error e
    | .ok none => normalizeLoop rest
    | .ok (some e) => (normalizeLoop rest).map (fun l => e :: l)

/-- `_normalize_evidence` from analyze_content.py: non-list input yields
`[]`; list input is normalized item by item. -/
def _normalize_evidence : JVal → Except PyErr (List EvidenceItem)
  | .arr l => normalizeLoop l
  | _ => .ok []

/-- Re-embedding of a normalized item as the Python dict the source
builds, for feeding `_normalize_evidence` its own output. -/
def evidenceToJVal (e : EvidenceItem) : JVal :=
  .obj [("type".data, .str e.type), ("source".data, .str e.source),
        ("locator".data, .str e.locator), ("snippet".data, .str e.snippet),
        ("confidence".data, .num e.confidence)]

/-- Re-embedding of a normalized list. -/
def evidenceListToJVal (l : List EvidenceItem) : JVal := .arr (l.map evidenceToJVal)

/-! ## extract_signals.py: evidence-pool construction -/

/-- An `ocr_hits` record as `main` builds it. -/
structure OcrHit where
  source : Str
  locator : Str
  text : Str
  confidence : ℚ
  deriving DecidableEq, Repr

/-- A transcript/metadata `SignalChunk` record.  The Python dict's
`start`/`end` keys are `start?`/`stop?` here (`end` is reserved). -/
structure SigChunk where
  start? : Option ℚ
  stop? : Option ℚ
  text : Str
  source : Str
  line : Nat
  deriving DecidableEq, Repr

/-- Rendering of a number inside an f-string locator, abstracted from
the Python float repr (no claim depends on the digits). -/
def ratRepr (q : ℚ) : Str := (toString q).data

/-- Rendering of a natural number inside an f-string locator. -/
def natRepr (n : Nat) : Str := (toString n).data

/-- `_build_evidence_from_ocr` from extract_signals.py (called with the
default `max_items = 10`). -/
def _build_evidence_from_ocr (hits : List OcrHit) : List EvidenceItem :=
  (hits.take 10).map (fun hit =>
    { type := if containsChars hit.source "frame".data then "frame_ocr".data
              else "cover_ocr".data,
      source := hit.source, locator := hit.locator,
      snippet := hit.text.take 120, confidence := hit.confidence })

/-- `_build_evidence_from_transcript` from extract_signals.py (default
`max_items = 10`). -/
def _build_evidence_from_transcript (chunks : List SigChunk) : List EvidenceItem :=
  (chunks.take 10).map (fun c =>
    let locator : Str :=
      match c.start? with
      | some s =>
        ratRepr s ++ "s-".data ++
          (match c.stop? with | some e => ratRepr e | none => "None".data) ++ "s".data
      | none => "line:".data ++ natRepr c.line
    { type := if c.start?.isSome then "timestamp".data else "transcript_span".data,
      source := c.source, locator := locator,
      snippet := c.text.take 120, confidence := 7/10 })

/-- One parsed `.info.json` sidecar document, after the
`str(...).strip()` coercions `_extract_from_info_json` applies:
`title`/`description` stripped strings, `tags` a list of stringified
tags, `path` the document's path. -/
structure InfoDoc where
  path : Str
  title : Str
  description : Str
  tags : List Str
  deriving DecidableEq, Repr

/-- The evidence items `_extract_from_info_json` appends: per document,
one `cover_ocr` item when the title is non-empty, one `transcript_span`
item when the description is non-empty, and one `visual_pattern` item
when the joined first-12 tags text is non-empty. -/
def _extract_info_evidence : List InfoDoc → List EvidenceItem
  | [] => []
  | d :: rest =>
    let e1 : List EvidenceItem :=
      if d.title != [] then
        [⟨"cover_ocr".data, d.path, "field:title".data, d.title.take 120, 62/100⟩]
      else []
    let e2 : List EvidenceItem :=
      if d.description != [] then
        [⟨"transcript_span".data, d.path, "field:description".data,
          d.description.take 120, 55/100⟩]
      else []
    let e3 : List EvidenceItem :=
      if d.tags != [] then
        let tagText := List.intercalate " ".data (d.tags.take 12)
        if tagText != [] then
          [⟨"visual_pattern".data, d.path, "field:tags".data, tagText.take 120, 1/2⟩]
        else []
      else []
    e1 ++ e2 ++ e3 ++ _extract_info_evidence rest

/-- The `evidence_pool` written into signals.json by `main`:
OCR evidence, then transcript evidence, then metadata evidence. -/
def evidencePool (hits : List OcrHit) (chunks : List SigChunk)
    (docs : List InfoDoc) : List EvidenceItem :=
  _build_evidence_from_ocr hits ++ _build_evidence_from_transcript chunks ++
    _extract_info_evidence docs

/-! ## Theorems -/

/-- A scripted world in which nothing is installed and nothing is
fetched, used to instantiate universally quantified theorems. -/
def trivEnv : AcqEnv :=
  { execFound := fun _ => false,
    binOutcome := fun _ => (⟨1, "", ""⟩, []),
    ytOutcome := fun _ => (⟨1, "", ""⟩, []),
    wechatFetch := .error "network unreachable",
    wechatPre := [], finalFiles := [] }

/-- A session file that failed to load (`session.get("ok")` falsy). -/
def sessionOff : Session := ⟨false, none, false, none⟩

/-- No manual assets. -/
def noManual : ManualAssets := ⟨[], [], [], []⟩

/-- C10 (claim): `classify_files` assigns each path to exactly one of
the five buckets by its lowercased extension, and the concatenation of
the five buckets is a permutation of the input — no path dropped,
duplicated, or double-classified. -/
theorem classify_files_partition (ps : List String) :
    (classify_files ps).video = ps.filter (fun p => category p == Cat.video) ∧
    (classify_files ps).images = ps.filter (fun p => category p == Cat.images) ∧
    (classify_files ps).audio = ps.filter (fun p => category p == Cat.audio) ∧
    (classify_files ps).transcript = ps.filter (fun p => category p == Cat.transcript) ∧
    (classify_files ps).other = ps.filter (fun p => category p == Cat.other) ∧
    ((classify_files ps).video ++ (classify_files ps).images ++ (classify_files ps).audio ++
        (classify_files ps).transcript ++ (classify_files ps).other).Perm ps := by
  induction ps with
  | nil => exact ⟨rfl, rfl, rfl, rfl, rfl, List.Perm.refl _⟩
  | cons p rest ih =>
    obtain ⟨hv, hi, ha, ht, ho, hp⟩ := ih
    rcases hb : classify_files rest with ⟨v, i, a, t, o⟩
    rw [hb] at hv hi ha ht ho hp
    by_cases h1 : extMem (lowerChars (pathSuffix p)) VIDEO_EXTS = true
    · have hc : category p = Cat.video := by simp [category, h1]
      refine ⟨?_, ?_, ?_, ?_, ?_, ?_⟩ <;>
        simp only [classify_files, hb, h1, if_true, List.filter_cons, hc, beq_self_eq_true,
          ite_true, List.cons_append]
      · exact congrArg (p :: ·) hv
      · exact hi
      · exact ha
      · exact ht
      · exact ho
      · exact hp.cons p
    · by_cases h2 : extMem (lowerChars (pathSuffix p)) IMAGE_EXTS = true
      · have hc : category p = Cat.images := by simp [category, h1, h2]
        refine ⟨?_, ?_, ?_, ?_, ?_, ?_⟩ <;>
          simp only [classify_files, hb, h1, h2, Bool.false_eq_true, if_false, if_true,
            List.filter_cons, hc, beq_self_eq_true, ite_true]
        · exact hv
        · exact congrArg (p :: ·) hi
        · exact ha
        · exact ht
        · exact ho
        · have e1 : v ++ (p :: i) ++ a ++ t ++ o = v ++ p :: (i ++ a ++ t ++ o) := by
            simp [List.append_assoc]
          rw [e1]
          refine List.Perm.trans List.perm_middle (List.Perm.cons p ?_)
          simpa [List.append_assoc] using hp
      · by_cases h3 : extMem (lowerChars (pathSuffix p)) AUDIO_EXTS = true
        · have hc : category p = Cat.audio := by simp [category, h1, h2, h3]
          refine ⟨?_, ?_, ?_, ?_, ?_, ?_⟩ <;>
            simp only [classify_files, hb, h1, h2, h3, Bool.false_eq_true, if_false, if_true,
              List.filter_cons, hc, beq_self_eq_true, ite_true]
          · exact hv
          · exact hi
          · exact congrArg (p :: ·) ha
          · exact ht
          · exact ho
          · have e1 : v ++ i ++ (p :: a) ++ t ++ o = (v ++ i) ++ p :: (a ++ t ++ o) := by
              simp [List.append_assoc]
            rw [e1]
            refine List.Perm.trans List.perm_middle (List.Perm.cons p ?_)
            simpa [List.append_assoc] using hp
        · by_cases h4 : extMem (lowerChars (pathSuffix p)) TRANSCRIPT_EXTS = true
          · have hc : category p = Cat.transcript := by simp [category, h1, h2, h3, h4]
            refine ⟨?_, ?_, ?_, ?_, ?_, ?_⟩ <;>
              simp only [classify_files, hb, h1, h2, h3, h4, Bool.false_eq_true, if_false,
                if_true, List.filter_cons, hc, beq_self_eq_true, ite_true]
            · exact hv
            · exact hi
            · exact ha
            · exact congrArg (p :: ·) ht
            · exact ho
            · have e1 : v ++ i ++ a ++ (p :: t) ++ o = (v ++ i ++ a) ++ p :: (t ++ o) := by
                simp [List.append_assoc]
              rw [e1]
              refine List.Perm.trans List.perm_middle (List.Perm.cons p ?_)
              simpa [List.append_assoc] using hp
          · have hc : category p = Cat.other := by simp [category, h1, h2, h3, h4]
            refine ⟨?_, ?_, ?_, ?_, ?_, ?_⟩ <;>
              simp only [classify_files, hb, h1, h2, h3, h4, Bool.false_eq_true, if_false,
                List.filter_cons, hc, beq_self_eq_true, ite_true]
            · exact hv
            · exact hi
            · exact ha
            · exact ht
            · exact congrArg (p :: ·) ho
            · have e1 : v ++ i ++ a ++ t ++ (p :: o) = (v ++ i ++ a ++ t) ++ p :: o := by
                simp [List.append_assoc]
              rw [e1]
              refine List.Perm.trans List.perm_middle (List.Perm.cons p ?_)
              simpa [List.append_assoc] using hp

/-- `_normalize_content_url` either returns its input unchanged or the
rewritten douyin video URL (and the rewrite only fires on douyin
hosts). -/
theorem normalize_fst_cases (u : Url) :
    (_normalize_content_url u).fst = u ∨
    ∃ m, (_normalize_content_url u).fst = ⟨"www.douyin.com", "/video/" ++ m, []⟩ ∧
      containsChars (lowerChars u.host.data) "douyin.com".data = true := by
  unfold _normalize_content_url
  by_cases hd : containsChars (lowerChars u.host.data) "douyin.com".data = true
  · rcases hm : lookupQueryFirst "modal_id" u.query with _ | m
    · by_cases hx : containsChars (lowerChars u.host.data) "xhslink.com".data = true <;>
        simp [hd, hm, hx]
    · by_cases hr : (m != "" && hasPref "/user/".data u.path.data) = true
      · right
        exact ⟨m, by simp [hd, hm, hr], hd⟩
      · by_cases hx : containsChars (lowerChars u.host.data) "xhslink.com".data = true <;>
          simp [hd, hm, hr, hx]
  · by_cases hx : containsChars (lowerChars u.host.data) "xhslink.com".data = true <;>
      simp [hd, hx]

/-- Normalizing the rewritten douyin video URL is a no-op. -/
theorem normalize_rewritten_fixed (m : String) :
    _normalize_content_url ⟨"www.douyin.com", "/video/" ++ m, []⟩ =
      (⟨"www.douyin.com", "/video/" ++ m, []⟩, none) := by
  have hc : containsChars (lowerChars ("www.douyin.com" : String).data) "douyin.com".data
      = true := by decide
  have hx : containsChars (lowerChars ("www.douyin.com" : String).data) "xhslink.com".data
      = false := by decide
  unfold _normalize_content_url
  simp [hc, hx, lookupQueryFirst]

/-- C9 (claim): for every supported-platform URL, normalization is
idempotent — normalizing the normalized URL returns it unchanged — and
the resolved platform is stable under normalization. -/
theorem claimC9_normalize_idempotent_platform_stable (u : Url)
    (_h : detect_platform u ≠ "unknown") :
    (_normalize_content_url (_normalize_content_url u).fst).fst =
      (_normalize_content_url u).fst ∧
    detect_platform (_normalize_content_url u).fst = detect_platform u := by
  rcases normalize_fst_cases u with h1 | ⟨m, h1, hd⟩
  · rw [h1]
    exact ⟨h1, rfl⟩
  · constructor
    · rw [h1, normalize_rewritten_fixed]
    · rw [h1]
      have l : detect_platform ⟨"www.douyin.com", "/video/" ++ m, []⟩ = "douyin" := by
        unfold detect_platform detect_platform_host
        simp only []
        have : containsChars (lowerChars ("www.douyin.com" : String).data)
            "douyin.com".data = true := by decide
        simp [this]
      have r : detect_platform u = "douyin" := by
        unfold detect_platform detect_platform_host
        simp [hd]
      rw [l, r]

/-- Witness for C9 at the douyin profile-modal URL that the rewrite
actually fires on. -/
theorem claimC9_witness :
    detect_platform ⟨"www.douyin.com", "/user/someone", [("modal_id", "123")]⟩ ≠ "unknown" ∧
    ((_normalize_content_url
        (_normalize_content_url
          ⟨"www.douyin.com", "/user/someone", [("modal_id", "123")]⟩).fst).fst =
      (_normalize_content_url
        ⟨"www.douyin.com", "/user/someone", [("modal_id", "123")]⟩).fst ∧
      detect_platform
          (_normalize_content_url
            ⟨"www.douyin.com", "/user/someone", [("modal_id", "123")]⟩).fst =
        detect_platform ⟨"www.douyin.com", "/user/someone", [("modal_id", "123")]⟩) :=
  ⟨by decide,
    claimC9_normalize_idempotent_platform_stable
      ⟨"www.douyin.com", "/user/someone", [("modal_id", "123")]⟩ (by decide)⟩

/-- On a host no platform matches, normalization is the identity. -/
theorem normalize_unknown_id (u : Url) (h : detect_platform u = "unknown") :
    (_normalize_content_url u).fst = u := by
  rcases normalize_fst_cases u with h1 | ⟨m, _, hd⟩
  · exact h1
  · exfalso
    have : detect_platform u = "douyin" := by
      unfold detect_platform detect_platform_host
      simp [hd]
    rw [this] at h
    exact absurd h (by decide)

/-- C8 (claim): a URL whose host is not recognized resolves to platform
`unknown` and acquisition halts immediately: an ok-false result with
error code `UNSUPPORTED_PLATFORM`, no adapter attempts, exit status 1. -/
theorem claimC8_unsupported_hard_stop (env : AcqEnv) (u : Url) (s : Session)
    (m : ManualAssets) (h : detect_platform u = "unknown") :
    mainAcquire env u s m =
      { exitCode := 1, okFlag := false, errCode := some "UNSUPPORTED_PLATFORM",
        errReason := some "仅支持抖音、小红书、微信公众号链接",
        errAction := some "请提供 douyin.com / xiaohongshu.com / xhslink.com / mp.weixin.qq.com 链接",
        attempts := [], contentType := "", platform := "unknown" } := by
  have h2 : acquirePlatform u = "unknown" := by
    unfold acquirePlatform
    rw [normalize_unknown_id u h]
    exact h
  unfold mainAcquire
  simp [h2]

/-- Witness for C8 at a concrete unsupported URL. -/
theorem claimC8_witness :
    detect_platform ⟨"example.com", "/watch", []⟩ = "unknown" ∧
    mainAcquire trivEnv ⟨"example.com", "/watch", []⟩ sessionOff noManual =
      { exitCode := 1, okFlag := false, errCode := some "UNSUPPORTED_PLATFORM",
        errReason := some "仅支持抖音、小红书、微信公众号链接",
        errAction := some "请提供 douyin.com / xiaohongshu.com / xhslink.com / mp.weixin.qq.com 链接",
        attempts := [], contentType := "", platform := "unknown" } :=
  ⟨by decide,
    claimC8_unsupported_hard_stop trivEnv ⟨"example.com", "/watch", []⟩ sessionOff noManual
      (by decide)⟩

/-- The payload `runSpecialized` returns for a successful candidate. -/
def mkSpecPayload (env : AcqEnv) (adapterName bin : String) : LogEntry :=
  { adapter := adapterName, adapterBin := some bin,
    result := some (env.binOutcome bin).fst, new_files := (env.binOutcome bin).snd }

/-- `runSpecialized` runs the on-PATH candidates in order and returns
exactly the first successful one's payload (failed runs are
discarded). -/
theorem runSpecialized_spec (env : AcqEnv) (n : String) (cands : List String) :
    runSpecialized env n cands =
      ((cands.filter env.execFound).any
          (fun b => attemptSuccess (env.binOutcome b).fst (env.binOutcome b).snd),
        ((cands.filter env.execFound).find?
          (fun b => attemptSuccess (env.binOutcome b).fst (env.binOutcome b).snd)).map
          (mkSpecPayload env n)) := by
  induction cands with
  | nil => rfl
  | cons c rest ih =>
    by_cases hf : env.execFound c = true
    · by_cases hs : attemptSuccess (env.binOutcome c).fst (env.binOutcome c).snd = true
      · simp [runSpecialized, hf, hs, List.filter_cons, mkSpecPayload]
      · simp [runSpecialized, hf, hs, List.filter_cons, ih]
    · simp [runSpecialized, hf, List.filter_cons, ih]

/-- Success test for one yt-dlp cookie variant. -/
def ytVariantSuccess (env : AcqEnv) (v : String × List String) : Bool :=
  attemptSuccess (env.ytOutcome v.snd).fst (env.ytOutcome v.snd).snd

/-- The detail record `_run_yt_dlp` logs for one cookie variant. -/
def mkVariantDetail (env : AcqEnv) (v : String × List String) : VariantDetail :=
  ⟨v.fst, (env.ytOutcome v.snd).fst, (env.ytOutcome v.snd).snd⟩

/-- The yt-dlp variant loop stops at the first success and records every
variant it executed, in order. -/
theorem ytLoop_spec (env : AcqEnv) (vs : List (String × List String))
    (acc : List VariantDetail) :
    (ytLoop env vs acc).fst = vs.any (ytVariantSuccess env) ∧
    (ytLoop env vs acc).snd.attempt_variants =
      acc ++ ((vs.takeWhile (fun v => !ytVariantSuccess env v)) ++
        (vs.dropWhile (fun v => !ytVariantSuccess env v)).take 1).map
        (mkVariantDetail env) := by
  induction vs generalizing acc with
  | nil => simp [ytLoop]
  | cons v rest ih =>
    obtain ⟨label, cargs⟩ := v
    by_cases hs : attemptSuccess (env.ytOutcome cargs).fst (env.ytOutcome cargs).snd = true
    · constructor
      · simp [ytLoop, hs, ytVariantSuccess]
      · simp [ytLoop, hs, ytVariantSuccess, mkVariantDetail]
    · constructor
      · simp [ytLoop, hs, ytVariantSuccess, (ih _).1]
      · have h2 := (ih (acc ++ [mkVariantDetail env (label, cargs)])).2
        simp only [mkVariantDetail] at h2
        simp only [ytLoop, hs, ytVariantSuccess, if_false, Bool.false_eq_true,
          List.takeWhile_cons, List.dropWhile_cons, Bool.not_false, Bool.not_true,
          List.map_append, List.map_take, List.append_assoc, List.cons_append,
          List.nil_append, List.singleton_append, List.map_cons] at h2 ⊢
        simp [h2, mkVariantDetail]

/-- C1 (amended): the specialized tools and every yt-dlp cookie variant
treat an attempt as successful iff its exit code is 0 and its new-file
set is non-empty; the wechat HTML fallback instead reports success iff
the page fetch succeeded, regardless of new files. -/
theorem claimC1_amended :
    (∀ (env : AcqEnv) (n : String) (cands : List String),
        (runSpecialized env n cands).fst =
          (cands.filter env.execFound).any
            (fun b => attemptSuccess (env.binOutcome b).fst (env.binOutcome b).snd)) ∧
    (∀ (env : AcqEnv) (s : Session) (pf : String),
        (_run_yt_dlp env s pf).fst =
          (env.execFound "yt-dlp" &&
            (_cookie_arg_variants s pf).any (ytVariantSuccess env))) ∧
    (∀ env : AcqEnv,
        (_run_wechat_html_fallback env).fst = (env.wechatFetch.toOption).isSome) := by
  refine ⟨?_, ?_, ?_⟩
  · intro env n cands
    rw [runSpecialized_spec]
  · intro env s pf
    by_cases hf : env.execFound "yt-dlp" = true
    · simp [_run_yt_dlp, hf, (ytLoop_spec env (_cookie_arg_variants s pf) []).1]
    · simp [_run_yt_dlp, hf]
  · intro env
    rcases h : env.wechatFetch with msg | pg <;>
      simp [_run_wechat_html_fallback, h, Except.toOption]

/-- Environment where the wechat article files already exist before the
fallback runs (e.g. a rerun in the same download directory). -/
def wechatStaleEnv : AcqEnv :=
  { execFound := fun _ => false,
    binOutcome := fun _ => (⟨1, "", ""⟩, []),
    ytOutcome := fun _ => (⟨1, "", ""⟩, []),
    wechatFetch := .ok ⟨none, false, false⟩,
    wechatPre := ["article.html", "article_body.txt", "wechat_article.info.json"],
    finalFiles := [] }

/-- C1 (counterexample): the wechat HTML fallback reports success with a
zero exit code and an empty new-file set, so "successful iff exit 0 and
new files non-empty" fails on this path. -/
theorem claimC1_counterexample :
    (_run_wechat_html_fallback wechatStaleEnv).fst = true ∧
    ((_run_wechat_html_fallback wechatStaleEnv).snd.result).map (fun r => r.exit_code) =
      some 0 ∧
    (_run_wechat_html_fallback wechatStaleEnv).snd.new_files = [] := by
  refine ⟨rfl, rfl, by decide⟩

/-- C2 (amended): adapters run strictly in declared order and stop at
the first success; all executed yt-dlp cookie variants are recorded and
a successful specialized attempt is the only attempt main logs for its
adapter — but the specialized runners return a payload only on success,
so failed specialized attempts are never logged. -/
theorem claimC2_amended :
    (∀ (env : AcqEnv) (n : String) (cands : List String),
        runSpecialized env n cands =
          ((cands.filter env.execFound).any
              (fun b => attemptSuccess (env.binOutcome b).fst (env.binOutcome b).snd),
            ((cands.filter env.execFound).find?
              (fun b => attemptSuccess (env.binOutcome b).fst (env.binOutcome b).snd)).map
              (mkSpecPayload env n))) ∧
    (∀ (env : AcqEnv) (s : Session) (pf : String), env.execFound "yt-dlp" = true →
        (_run_yt_dlp env s pf).snd.attempt_variants =
          (((_cookie_arg_variants s pf).takeWhile (fun v => !ytVariantSuccess env v)) ++
            ((_cookie_arg_variants s pf).dropWhile
              (fun v => !ytVariantSuccess env v)).take 1).map (mkVariantDetail env) ∧
        (_run_yt_dlp env s pf).fst = (_cookie_arg_variants s pf).any (ytVariantSuccess env)) ∧
    (∀ (env : AcqEnv) (s : Session),
        (runSpecialized env "xhs-specialized" xhsCandidateBins).fst = true →
        acquireAttempts env "xiaohongshu" s =
          (((runSpecialized env "xhs-specialized" xhsCandidateBins).snd).toList, true)) := by
  refine ⟨?_, ?_, ?_⟩
  · intro env n cands
    exact runSpecialized_spec env n cands
  · intro env s pf hf
    constructor
    · simpa [_run_yt_dlp, hf] using (ytLoop_spec env (_cookie_arg_variants s pf) []).2
    · simpa [_run_yt_dlp, hf] using (ytLoop_spec env (_cookie_arg_variants s pf) []).1
  · intro env s h
    rcases hsnd : (runSpecialized env "xhs-specialized" xhsCandidateBins).snd with _ | p <;>
      simp [acquireAttempts, h, hsnd, Option.toList]

/-- Environment where the only installed specialized tool fails. -/
def xhsSilentEnv : AcqEnv :=
  { execFound := fun b => b == "xhs-downloader",
    binOutcome := fun _ => (⟨1, "", "boom"⟩, []),
    ytOutcome := fun _ => (⟨1, "", ""⟩, []),
    wechatFetch := .error "unused",
    wechatPre := [], finalFiles := [] }

/-- The xiaohongshu URL used in the scripted runs. -/
def uXhs : Url := ⟨"www.xiaohongshu.com", "/explore/1", []⟩

/-- C2 (counterexample): `xhs-downloader` is on PATH and is executed
(exiting 1), yet the run's attempt log contains only the yt-dlp entry —
the failed specialized attempt was never appended. -/
theorem claimC2_counterexample :
    xhsSilentEnv.execFound "xhs-downloader" = true ∧
    (xhsSilentEnv.binOutcome "xhs-downloader").fst.exit_code = 1 ∧
    runSpecialized xhsSilentEnv "xhs-specialized" xhsCandidateBins = (false, none) ∧
    (mainAcquire xhsSilentEnv uXhs sessionOff noManual).attempts.map (fun a => a.adapter) =
      ["yt-dlp"] := by
  refine ⟨rfl, rfl, by decide, by decide⟩

/-- Environment with yt-dlp installed whose first cookie variant
succeeds. -/
def ytOkEnv : AcqEnv :=
  { execFound := fun b => b == "yt-dlp",
    binOutcome := fun _ => (⟨1, "", ""⟩, []),
    ytOutcome := fun _ => (⟨0, "", ""⟩, ["video.mp4"]),
    wechatFetch := .error "unused",
    wechatPre := [], finalFiles := [] }

/-- Environment where the first specialized xiaohongshu tool
succeeds. -/
def xhsOkEnv : AcqEnv :=
  { execFound := fun b => b == "xhs-downloader",
    binOutcome := fun _ => (⟨0, "", ""⟩, ["note.json"]),
    ytOutcome := fun _ => (⟨1, "", ""⟩, []),
    wechatFetch := .error "unused",
    wechatPre := [], finalFiles := [] }

/-- Witness for C2 (amended) at concrete environments. -/
theorem claimC2_witness :
    (ytOkEnv.execFound "yt-dlp" = true ∧
      ((_run_yt_dlp ytOkEnv sessionOff "douyin").snd.attempt_variants =
        (((_cookie_arg_variants sessionOff "douyin").takeWhile
            (fun v => !ytVariantSuccess ytOkEnv v)) ++
          ((_cookie_arg_variants sessionOff "douyin").dropWhile
            (fun v => !ytVariantSuccess ytOkEnv v)).take 1).map (mkVariantDetail ytOkEnv) ∧
        (_run_yt_dlp ytOkEnv sessionOff "douyin").fst =
          (_cookie_arg_variants sessionOff "douyin").any (ytVariantSuccess ytOkEnv))) ∧
    ((runSpecialized xhsOkEnv "xhs-specialized" xhsCandidateBins).fst = true ∧
      acquireAttempts xhsOkEnv "xiaohongshu" sessionOff =
        (((runSpecialized xhsOkEnv "xhs-specialized" xhsCandidateBins).snd).toList, true)) :=
  ⟨⟨rfl, claimC2_amended.2.1 ytOkEnv sessionOff "douyin" rfl⟩,
    ⟨by decide, claimC2_amended.2.2 xhsOkEnv sessionOff (by decide)⟩⟩

/-- Environment in which every yt-dlp variant fails with a DNS error in
its stderr. -/
def dnsEnv : AcqEnv :=
  { execFound := fun b => b == "yt-dlp",
    binOutcome := fun _ => (⟨1, "", ""⟩, []),
    ytOutcome := fun _ => (⟨1, "", "curl: failed to resolve host douyin.com"⟩, []),
    wechatFetch := .error "unused",
    wechatPre := [], finalFiles := [] }

/-- The douyin URL used in the scripted runs. -/
def uDouyin : Url := ⟨"www.douyin.com", "/video/123", []⟩

/-- C3 (counterexample): with DNS-failure stderr the written error code
is `DOWNLOAD_FAILED`, not `NetworkDNS` — the classification never lands
in the code field. -/
theorem claimC3_counterexample :
    _looks_dns_error
        (stderrAll (mainAcquire dnsEnv uDouyin sessionOff noManual).attempts) = true ∧
    (mainAcquire dnsEnv uDouyin sessionOff noManual).errCode = some "DOWNLOAD_FAILED" ∧
    (mainAcquire dnsEnv uDouyin sessionOff noManual).errCode ≠ some "NetworkDNS" := by
  refine ⟨by decide, by decide, by decide⟩

/-- C3 (amended): the only error codes acquisition ever writes are
`UNSUPPORTED_PLATFORM` and `DOWNLOAD_FAILED`; the stderr classification
is carried in the reason/next-action strings — a DNS match yields the
DNS remediation pair, and when no pattern matches (with yt-dlp on PATH)
the generic download-failure pair is produced. -/
theorem claimC3_amended :
    (∀ (env : AcqEnv) (u : Url) (s : Session) (m : ManualAssets) (c : String),
        (mainAcquire env u s m).errCode = some c →
        c = "UNSUPPORTED_PLATFORM" ∨ c = "DOWNLOAD_FAILED") ∧
    (∀ attempts : List LogEntry, _looks_dns_error (stderrAll attempts) = true →
        _derive_failure_reason true attempts =
          ("网络或 DNS 无法解析平台域名", "检查当前环境网络/DNS；在可联网终端或代理环境重试")) ∧
    (∀ attempts : List LogEntry,
        _looks_dns_error (stderrAll attempts) = false →
        _looks_cookie_permission_error (stderrAll attempts) = false →
        strIn "fresh cookies are needed"
          (String.mk (lowerChars (stderrAll attempts).data)) = false →
        strIn "http error 403" (String.mk (lowerChars (stderrAll attempts).data)) = false →
        strIn "forbidden" (String.mk (lowerChars (stderrAll attempts).data)) = false →
        strIn "404" (stderrAll attempts) = false →
        _derive_failure_reason true attempts =
          ("下载失败或未识别到可分析媒体", "检查链接可访问性、登录状态，并确认 yt-dlp/专用下载器已安装")) := by
  refine ⟨?_, ?_, ?_⟩
  · intro env u s m c h
    unfold mainAcquire at h
    split at h
    · left
      exact (Option.some.inj (h : some "UNSUPPORTED_PLATFORM" = some c)).symm
    · split at h
      · right
        exact (Option.some.inj (h : some "DOWNLOAD_FAILED" = some c)).symm
      · exact absurd (h : (none : Option String) = some c) (by simp)
  · intro attempts h
    unfold _derive_failure_reason
    simp [h]
  · intro attempts h1 h2 h3 h4 h5 h6
    unfold _derive_failure_reason
    simp [h1, h2, h3, h4, h5, h6]

/-- A concrete attempt log with DNS-failure stderr. -/
def dnsAttempts : List LogEntry :=
  [{ adapter := "yt-dlp", result := some ⟨1, "", "failed to resolve"⟩ }]

/-- Witness for C3 (amended) at a concrete DNS-failing log. -/
theorem claimC3_witness :
    _looks_dns_error (stderrAll dnsAttempts) = true ∧
    _derive_failure_reason true dnsAttempts =
      ("网络或 DNS 无法解析平台域名", "检查当前环境网络/DNS；在可联网终端或代理环境重试") :=
  ⟨by decide, claimC3_amended.2.1 dnsAttempts (by decide)⟩

/-- C4 (counterexample): on the very same (empty) attempt log the
classification differs depending on whether yt-dlp is on PATH, so it is
not a function of the attempt log alone. -/
theorem claimC4_counterexample :
    _derive_failure_reason true [] ≠ _derive_failure_reason false [] := by decide

/-- C4 (amended): the classification is a pure function of the yt-dlp
PATH probe and the aggregated stderr of the attempt log — two logs with
the same aggregated stderr classify identically for the same probe
result. -/
theorem claimC4_amended (b : Bool) (a1 a2 : List LogEntry)
    (h : stderrAll a1 = stderrAll a2) :
    _derive_failure_reason b a1 = _derive_failure_reason b a2 := by
  unfold _derive_failure_reason
  rw [h]

/-- Two distinct logs agreeing on stderr. -/
def logA : List LogEntry := [{ adapter := "yt-dlp", result := some ⟨1, "out-a", "same"⟩ }]

/-- A log differing from `logA` everywhere except stderr. -/
def logB : List LogEntry := [{ adapter := "probe", result := some ⟨0, "out-b", "same"⟩ }]

/-- Witness for C4 (amended). -/
theorem claimC4_witness :
    stderrAll logA = stderrAll logB ∧
    _derive_failure_reason true logA = _derive_failure_reason true logB :=
  ⟨by decide, claimC4_amended true logA logB (by decide)⟩

/-- An evidence list whose item carries a non-numeric confidence. -/
def badEvidence : JVal :=
  .arr [.obj [("type".data, .str "frame_ocr".data), ("confidence".data, .str "high".data)]]

/-- C5 (failing input): `_normalize_evidence` is not total — an item
whose confidence is the truthy non-numeric string "high" makes
`float(item.get("confidence", 0.5) or 0.5)` raise ValueError instead of
defaulting to 0.5. -/
theorem claimC5_normalize_raises :
    _normalize_evidence badEvidence = .error .valueError := rfl

/-- An evidence list whose item's confidence is the truthy string "0"
(so `float` yields 0.0 on the first pass). -/
def zeroConfEvidence : JVal :=
  .arr [.obj [("type".data, .str "timestamp".data), ("source".data, .str "s".data),
              ("locator".data, .str "l".data), ("snippet".data, .str "t".data),
              ("confidence".data, .str "0".data)]]

/-- C6 (counterexample): normalization is not idempotent — the first
pass yields confidence 0.0, and re-normalizing that already-normalized
output rewrites the confidence to 0.5 (0.0 is falsy, so `x or 0.5`
kicks in). -/
theorem claimC6_counterexample :
    _normalize_evidence zeroConfEvidence =
      .ok [⟨"timestamp".data, "s".data, "l".data, "t".data, 0⟩] ∧
    _normalize_evidence
        (evidenceListToJVal [⟨"timestamp".data, "s".data, "l".data, "t".data, 0⟩]) =
      .ok [⟨"timestamp".data, "s".data, "l".data, "t".data, 1/2⟩] := by
  constructor <;> rfl

/-- The shape invariant of every `_normalize_evidence` output item. -/
def wfEvidence (e : EvidenceItem) : Prop :=
  ALLOWED_EVIDENCE_TYPES.any (fun t => t == e.type) = true ∧
  e.source.length ≤ 300 ∧ e.locator.length ≤ 120 ∧ e.snippet.length ≤ 200

/-- A kept item of `normalizeItem` satisfies the shape invariant. -/
theorem normalizeItem_wf (it : JVal) (e : EvidenceItem)
    (h : normalizeItem it = .ok (some e)) : wfEvidence e := by
  rcases it with _ | b | q | s | l | fields
  · exact absurd h (by simp [normalizeItem])
  · exact absurd h (by simp [normalizeItem])
  · exact absurd h (by simp [normalizeItem])
  · exact absurd h (by simp [normalizeItem])
  · exact absurd h (by simp [normalizeItem])
  · unfold normalizeItem at h
    dsimp only at h
    split at h
    · next q hq =>
        simp only [Except.ok.injEq, Option.some.injEq] at h
        subst h
        refine ⟨?_, ?_, ?_, ?_⟩
        · dsimp only
          rcases hr : (objGet fields "type".data).getD .null with _ | b | q' | s | l | f <;>
            simp only [hr]
          · decide
          · decide
          · decide
          · by_cases ha : (ALLOWED_EVIDENCE_TYPES.any fun t => t == s) = true
            · simp [ha]
            · simp only [ha, Bool.false_eq_true]
              simp [ha]
              decide
          · decide
          · decide
        · dsimp only
          rw [List.length_take]
          exact min_le_left _ _
        · dsimp only
          rw [List.length_take]
          exact min_le_left _ _
        · dsimp only
          rw [List.length_take]
          exact min_le_left _ _
    · next perr hq => exact absurd h (by simp)

/-- Every item of a successful `normalizeLoop` run satisfies the shape
invariant. -/
theorem normalizeLoop_wf (l : List JVal) (out : List EvidenceItem)
    (h : normalizeLoop l = .ok out) : ∀ e ∈ out, wfEvidence e := by
  induction l generalizing out with
  | nil =>
    have h2 : [] = out := by simpa [normalizeLoop] using h
    subst h2
    intro e he
    exact absurd he (by simp)
  | cons it rest ih =>
    unfold normalizeLoop at h
    rcases hit : normalizeItem it with err | v <;> rw [hit] at h
    · exact absurd h (by simp)
    · rcases v with _ | e0
      · exact ih out h
      · rcases hrest : normalizeLoop rest with err | out0 <;> rw [hrest] at h
        · exact absurd h (by simp [Except.map])
        · have h2 : e0 :: out0 = out := by simpa [Except.map] using h
          subst h2
          intro e he
          rcases List.mem_cons.1 he with rfl | he
          · exact normalizeItem_wf it e hit
          · exact ih out0 hrest e he

/-- Re-normalizing a single well-formed item with non-zero confidence is
the identity. -/
theorem normalizeItem_roundtrip (e : EvidenceItem) (hwf : wfEvidence e)
    (hc : e.confidence ≠ 0) : normalizeItem (evidenceToJVal e) = .ok (some e) := by
  obtain ⟨h1, h2, h3, h4⟩ := hwf
  have k1 : (("type".data : List Char) == "source".data) = false := by decide
  have k2 : (("type".data : List Char) == "locator".data) = false := by decide
  have k3 : (("type".data : List Char) == "snippet".data) = false := by decide
  have k4 : (("type".data : List Char) == "confidence".data) = false := by decide
  have k5 : (("source".data : List Char) == "locator".data) = false := by decide
  have k6 : (("source".data : List Char) == "snippet".data) = false := by decide
  have k7 : (("source".data : List Char) == "confidence".data) = false := by decide
  have k8 : (("locator".data : List Char) == "snippet".data) = false := by decide
  have k9 : (("locator".data : List Char) == "confidence".data) = false := by decide
  have k10 : (("snippet".data : List Char) == "confidence".data) = false := by decide
  have ht : pyTruthy (.num e.confidence) = true := by simp [pyTruthy, hc]
  have gt : objGet [("type".data, JVal.str e.type), ("source".data, JVal.str e.source),
      ("locator".data, JVal.str e.locator), ("snippet".data, JVal.str e.snippet),
      ("confidence".data, JVal.num e.confidence)] "type".data = some (.str e.type) := by
    simp [objGet, List.filter_cons]
  have gs : objGet [("type".data, JVal.str e.type), ("source".data, JVal.str e.source),
      ("locator".data, JVal.str e.locator), ("snippet".data, JVal.str e.snippet),
      ("confidence".data, JVal.num e.confidence)] "source".data = some (.str e.source) := by
    simp [objGet, List.filter_cons, k1]
  have gl : objGet [("type".data, JVal.str e.type), ("source".data, JVal.str e.source),
      ("locator".data, JVal.str e.locator), ("snippet".data, JVal.str e.snippet),
      ("confidence".data, JVal.num e.confidence)] "locator".data = some (.str e.locator) := by
    simp [objGet, List.filter_cons, k2, k5]
  have gn : objGet [("type".data, JVal.str e.type), ("source".data, JVal.str e.source),
      ("locator".data, JVal.str e.locator), ("snippet".data, JVal.str e.snippet),
      ("confidence".data, JVal.num e.confidence)] "snippet".data = some (.str e.snippet) := by
    simp [objGet, List.filter_cons, k3, k6, k8]
  have gc : objGet [("type".data, JVal.str e.type), ("source".data, JVal.str e.source),
      ("locator".data, JVal.str e.locator), ("snippet".data, JVal.str e.snippet),
      ("confidence".data, JVal.num e.confidence)] "confidence".data =
        some (.num e.confidence) := by
    simp [objGet, List.filter_cons, k4, k7, k9, k10]
  unfold evidenceToJVal normalizeItem
  dsimp only
  rw [gt, gs, gl, gn, gc]
  simp only [Option.getD_some, pyStr, h1, ite_true, ht, pyFloat,
    List.take_of_length_le h2, List.take_of_length_le h3, List.take_of_length_le h4]

/-- Re-normalizing a whole well-formed output list is the identity. -/
theorem normalizeLoop_roundtrip (out : List EvidenceItem)
    (h : ∀ e ∈ out, wfEvidence e ∧ e.confidence ≠ 0) :
    normalizeLoop (out.map evidenceToJVal) = .ok out := by
  induction out with
  | nil => rfl
  | cons e rest ih =>
    have he := h e (by simp)
    have hrest : normalizeLoop (rest.map evidenceToJVal) = .ok rest :=
      ih (fun x hx => h x (by simp [hx]))
    simp only [List.map_cons]
    unfold normalizeLoop
    rw [normalizeItem_roundtrip e he.1 he.2, hrest]
    rfl

/-- C6 (amended): `_normalize_evidence` is idempotent on every input
whose normalized items all carry non-zero confidence — re-normalizing
such output leaves every field unchanged.  (When an output confidence is
exactly 0.0, the second pass rewrites it to 0.5, per the
counterexample.) -/
theorem claimC6_amended (x : JVal) (out : List EvidenceItem)
    (h : _normalize_evidence x = .ok out)
    (hc : ∀ e ∈ out, e.confidence ≠ 0) :
    _normalize_evidence (evidenceListToJVal out) = .ok out := by
  have hwf : ∀ e ∈ out, wfEvidence e := by
    rcases x with _ | b | q | s | l | f
    case arr => exact normalizeLoop_wf l out h
    all_goals
      obtain rfl : [] = out := Except.ok.inj h
      intro e he
      exact absurd he (by simp)
  show normalizeLoop (out.map evidenceToJVal) = .ok out
  exact normalizeLoop_roundtrip out (fun e he => ⟨hwf e he, hc e he⟩)

/-- A well-formed evidence list reused by the C6 witness. -/
def okEvidence : JVal :=
  .arr [.obj [("type".data, .str "frame_ocr".data), ("source".data, .str "f.jpg".data),
              ("locator".data, .str "frame:0".data), ("snippet".data, .str "hi".data),
              ("confidence".data, .num 1)]]

/-- The normalized form of `okEvidence`. -/
def okEvidenceOut : List EvidenceItem :=
  [⟨"frame_ocr".data, "f.jpg".data, "frame:0".data, "hi".data, 1⟩]

/-- Witness for C6 (amended) at a concrete normalized list. -/
theorem claimC6_witness :
    _normalize_evidence okEvidence = .ok okEvidenceOut ∧
    (∀ e ∈ okEvidenceOut, e.confidence ≠ 0) ∧
    _normalize_evidence (evidenceListToJVal okEvidenceOut) = .ok okEvidenceOut :=
  ⟨rfl, by decide, claimC6_amended okEvidence okEvidenceOut rfl (by decide)⟩

/-- C7 exactly as the claim states it: every pool item is well-typed
with a ≤200-char snippet, and each source category is bounded by one
fixed bound across all inputs. -/
def claimC7statement : Prop :=
  (∀ (hits : List OcrHit) (chunks : List SigChunk) (docs : List InfoDoc),
      ∀ e ∈ evidencePool hits chunks docs,
        ALLOWED_EVIDENCE_TYPES.any (fun t => t == e.type) = true ∧
        e.snippet.length ≤ 200) ∧
  (∃ B : ℕ, ∀ (hits : List OcrHit) (chunks : List SigChunk) (docs : List InfoDoc),
      (_build_evidence_from_ocr hits).length ≤ B ∧
      (_build_evidence_from_transcript chunks).length ≤ B ∧
      (_extract_info_evidence docs).length ≤ B)

/-- A sidecar document contributing exactly one evidence item. -/
def titleOnlyDoc : InfoDoc := ⟨"a.info.json".data, "t".data, [], []⟩

/-- Metadata evidence grows linearly with the number of sidecar
documents. -/
theorem info_evidence_replicate (n : ℕ) :
    (_extract_info_evidence (List.replicate n titleOnlyDoc)).length = n := by
  induction n with
  | zero => rfl
  | succ k ih =>
    simp only [titleOnlyDoc] at ih
    simp [List.replicate_succ, _extract_info_evidence, titleOnlyDoc, ih]

/-- C7 (counterexample): the metadata category of the evidence pool is
not bounded — it contributes up to three items per sidecar document,
and the document count is unbounded. -/
theorem claimC7_counterexample : ¬ claimC7statement := by
  rintro ⟨_, B, hB⟩
  have h := (hB [] [] (List.replicate (B + 1) titleOnlyDoc)).2.2
  rw [info_evidence_replicate] at h
  omega

/-- Every metadata evidence item is well-typed with a short snippet. -/
theorem info_evidence_wf (docs : List InfoDoc) :
    ∀ e ∈ _extract_info_evidence docs,
      ALLOWED_EVIDENCE_TYPES.any (fun t => t == e.type) = true ∧
      e.snippet.length ≤ 200 := by
  induction docs with
  | nil =>
    intro e he
    exact absurd he (by simp [_extract_info_evidence])
  | cons d rest ih =>
    intro e he
    unfold _extract_info_evidence at he
    simp only [List.append_assoc, List.mem_append] at he
    rcases he with he | he | he | he
    · rcases hcond : (d.title != []) with _ | _ <;> rw [hcond] at he
      · exact absurd he (by simp)
      · simp at he
        subst he
        refine ⟨?_, ?_⟩
        · exact (by decide :
            (ALLOWED_EVIDENCE_TYPES.any fun t => t == ("cover_ocr".data : Str)) = true)
        · show (List.take 120 d.title).length ≤ 200
          rw [List.length_take]
          exact le_trans (min_le_left _ _) (by omega)
    · rcases hcond : (d.description != []) with _ | _ <;> rw [hcond] at he
      · exact absurd he (by simp)
      · simp at he
        subst he
        refine ⟨?_, ?_⟩
        · exact (by decide :
            (ALLOWED_EVIDENCE_TYPES.any fun t => t == ("transcript_span".data : Str)) = true)
        · show (List.take 120 d.description).length ≤ 200
          rw [List.length_take]
          exact le_trans (min_le_left _ _) (by omega)
    · rcases hcond : (d.tags != []) with _ | _ <;> rw [hcond] at he
      · exact absurd he (by simp)
      · simp only at he
        rcases hcond2 : (List.intercalate " ".data (d.tags.take 12) != []) with _ | _ <;>
          rw [hcond2] at he
        · exact absurd he (by simp)
        · simp at he
          subst he
          refine ⟨?_, ?_⟩
          · exact (by decide :
              (ALLOWED_EVIDENCE_TYPES.any fun t => t == ("visual_pattern".data : Str)) = true)
          · show (List.take 120 (List.intercalate " ".data (d.tags.take 12))).length ≤ 200
            rw [List.length_take]
            exact le_trans (min_le_left _ _) (by omega)
    · exact ih e he

/-- The metadata evidence count is at most three per document. -/
theorem info_evidence_len (docs : List InfoDoc) :
    (_extract_info_evidence docs).length ≤ 3 * docs.length := by
  induction docs with
  | nil => simp [_extract_info_evidence]
  | cons d rest ih =>
    unfold _extract_info_evidence
    have key : ∀ a b c : List EvidenceItem, a.length ≤ 1 → b.length ≤ 1 → c.length ≤ 1 →
        (a ++ b ++ c ++ _extract_info_evidence rest).length ≤ 3 * (d :: rest).length := by
      intro a b c ha hb hc
      simp only [List.length_append, List.length_cons]
      omega
    apply key
    · split <;> simp
    · split <;> simp
    · split
      · dsimp only
        split <;> simp
      · simp

/-- C7 (amended): every evidence-pool item has a type in the fixed enum
and a snippet of at most 200 characters (by construction — the
analysis-stage validator is not invoked here), the frame-OCR and
transcript categories are capped at 10 items, and the metadata category
is bounded only by three items per sidecar document. -/
theorem claimC7_amended (hits : List OcrHit) (chunks : List SigChunk)
    (docs : List InfoDoc) :
    (∀ e ∈ evidencePool hits chunks docs,
        ALLOWED_EVIDENCE_TYPES.any (fun t => t == e.type) = true ∧
        e.snippet.length ≤ 200) ∧
    (_build_evidence_from_ocr hits).length ≤ 10 ∧
    (_build_evidence_from_transcript chunks).length ≤ 10 ∧
    (_extract_info_evidence docs).length ≤ 3 * docs.length := by
  refine ⟨?_, ?_, ?_, info_evidence_len docs⟩
  · intro e he
    unfold evidencePool at he
    simp only [List.append_assoc, List.mem_append] at he
    rcases he with he | he | he
    · rcases List.mem_map.1 he with ⟨hit, _, rfl⟩
      constructor
      · by_cases hf : containsChars hit.source "frame".data = true <;>
          simp [_build_evidence_from_ocr, hf] <;> decide
      · rw [List.length_take]
        exact le_trans (min_le_left _ _) (by omega)
    · rcases List.mem_map.1 he with ⟨c, _, rfl⟩
      constructor
      · by_cases hs : c.start?.isSome = true <;> simp [hs] <;> decide
      · rw [List.length_take]
        exact le_trans (min_le_left _ _) (by omega)
    · exact info_evidence_wf docs e he
  · rw [_build_evidence_from_ocr, List.length_map, List.length_take]
    exact min_le_left _ _
  · rw [_build_evidence_from_transcript, List.length_map, List.length_take]
    exact min_le_left _ _

/-- A concrete OCR hit for the C7 witness. -/
def hit0 : OcrHit := ⟨"frame_000.jpg".data, "frame:0".data, "hello".data, 1⟩

/-- The evidence item built from `hit0`. -/
def ev0 : EvidenceItem :=
  ⟨"frame_ocr".data, "frame_000.jpg".data, "frame:0".data, "hello".data, 1⟩

/-- Witness for C7 (amended) at a concrete pool. -/
theorem claimC7_amended_witness :
    ALLOWED_EVIDENCE_TYPES.any (fun t => t == ev0.type) = true ∧
    ev0.snippet.length ≤ 200 :=
  (claimC7_amended [hit0] [] []).1 ev0 (by decide)

end VCB
